import Mathlib

/-!
Shallow embedding of `src/marvin/beta/assistants/runs.py`.

The module defines a single class `Run` that orchestrates one execution of an
assistant against a thread via a remote streaming client.  We embed the class
as a Lean structure `Run` holding the same fields, model the remote client and
the event handlers as an explicit environment (`ClientEnv`, `HandlerResult`),
model the external helper `marvin.utilities.tools.call_function_tool` as an
oracle function (`CallTool`), and translate each method
(`get_instructions`, `get_tools`, `get_tool_outputs`, `refresh_async`,
`cancel_async`, `run_async`) into an executable Lean function.  Side effects
(API requests and hook invocations) are recorded as an explicit event trace,
and Python exceptions are modelled by the `PyExc` type threaded through
results.
-/

/-- An assistant tool, as seen by `runs.py`.  The module never inspects a
tool beyond passing it around, so only an identifying name is modelled. -/
structure AssistantTool where
  name : String
deriving DecidableEq, Repr

/-- The `function` member of an OpenAI tool call: a function name and its
JSON-encoded arguments. -/
structure ToolCallFunction where
  name : String
  arguments : String
deriving DecidableEq, Repr

/-- One tool call reported by the server inside `required_action`. -/
structure ToolCall where
  id : String
  function : ToolCallFunction
deriving DecidableEq, Repr

/-- The `submit_tool_outputs` member of a required action. -/
structure SubmitToolOutputs where
  tool_calls : List ToolCall
deriving DecidableEq, Repr

/-- The `required_action` member of an OpenAI run object. -/
structure RequiredAction where
  type : String
  submit_tool_outputs : SubmitToolOutputs
deriving DecidableEq, Repr

/-- The OpenAI run object (`openai.types.beta.threads.run.Run`), restricted to
the fields `runs.py` reads: `id`, `status`, `required_action`. -/
structure OpenAIRun where
  id : String
  status : String
  required_action : Option RequiredAction
deriving DecidableEq, Repr

/-- An OpenAI thread message, restricted to the fields `runs.py` reads:
`id` (dict key) and `created_at` (sort key). -/
structure Message where
  id : String
  created_at : Nat
deriving DecidableEq, Repr

/-- An OpenAI run step, restricted to the fields `runs.py` reads. -/
structure RunStep where
  id : String
  created_at : Nat
deriving DecidableEq, Repr

/-- A Python `dict` with string keys, as an insertion-ordered association
list. -/
abbrev PyDict (α : Type) := List (String × α)

/-- Python `d[k] = v`: replace the value in place when the key is present,
append otherwise. -/
def pyDictInsert (d : PyDict α) (k : String) (v : α) : PyDict α :=
  if d.any (fun p => p.1 = k) then
    d.map (fun p => if p.1 = k then (k, v) else p)
  else
    d ++ [(k, v)]

/-- Python `d.update(items)`: insert each item in order, later values for the
same key overwriting earlier ones. -/
def pyDictUpdate (d : PyDict α) (items : List (String × α)) : PyDict α :=
  items.foldl (fun acc p => pyDictInsert acc p.1 p.2) d

/-- Python `d.values()`. -/
def pyDictValues (d : PyDict α) : List α :=
  d.map (fun p => p.2)

/-- Python `d.keys()`. -/
def pyDictKeys (d : PyDict α) : List String :=
  d.map (fun p => p.1)

/-- Python `d.get(k)` / `d[k]`. -/
def pyDictGet (d : PyDict α) (k : String) : Option α :=
  (d.find? (fun p => p.1 = k)).map (fun p => p.2)

/-- Python `sorted(xs, key=...)` with a numeric key: a stable sort.  Stable
sorts by a fixed comparator agree extensionally, so Mathlib's insertion sort
(which inserts each element before the strictly-greater tail of the already
sorted suffix, hence is stable) models it exactly. -/
def pySorted (key : α → Nat) (l : List α) : List α :=
  List.insertionSort (fun a b => key a ≤ key b) l

/-- Outcome of the external helper
`marvin.utilities.tools.call_function_tool(..., return_string=True)`: a
(possibly `None`, possibly empty and hence falsy) string result, a raised
`CancelRun` carrying its `data`, or any other raised exception rendered as
its message. -/
inductive ToolCallResult where
  | ok (output : Option String)
  | raiseCancelRun (data : Option String)
  | raiseError (msg : String)
deriving DecidableEq, Repr

/-- The oracle for `marvin.utilities.tools.call_function_tool`: given the tool
list, the function name and the JSON arguments, what the call does. -/
abbrev CallTool := List AssistantTool → String → String → ToolCallResult

/-- Python exceptions that the embedded code raises or handles:
`ValueError(msg)`, `AttributeError` (attribute access on `None`), and
`marvin.tools.assistants.CancelRun` carrying its `data`. -/
inductive PyExc where
  | valueError (msg : String)
  | attributeError
  | cancelRun (data : Option String)
deriving DecidableEq, Repr

/-- One entry of the tool-output list submitted back to the server:
`dict(tool_call_id=..., output=...)`. -/
structure ToolOutput where
  tool_call_id : String
  output : String
deriving DecidableEq, Repr

/-- The value `Run.get_tool_outputs` actually returns: the tuple
`(None, None)` when the status is not `requires_action`, the implicit `None`
when the required action is not `submit_tool_outputs`, or the output list. -/
inductive ToolOutputsResult where
  | nonePair
  | noneValue
  | outputs (l : List ToolOutput)
deriving DecidableEq, Repr

/-- The final state reached by one drained event stream, as exposed by the
run handler: `current_run`, `get_final_messages()`, `get_final_run_steps()`. -/
structure HandlerResult where
  current_run : OpenAIRun
  final_messages : List Message
  final_run_steps : List RunStep
deriving DecidableEq, Repr

/-- The remote client's behaviour for one `run_async` execution: the handler
state after the initial `create_and_stream`, the handler states after each
successive `submit_tool_outputs_stream`, and the run object a `retrieve`
returns. -/
structure ClientEnv where
  firstResult : HandlerResult
  nextResults : List HandlerResult
  retrieveResult : OpenAIRun
deriving DecidableEq, Repr

/-- The run-time overrides passed to `create_and_stream`: the `run_kwargs`
dict, whose `instructions` and `tools` keys are each present or absent. -/
structure RunKwargs where
  instructions : Option String
  tools : Option (List AssistantTool)
deriving DecidableEq, Repr

/-- Observable actions of the `Run` methods: API requests issued through the
client, and hook/handler invocations. -/
inductive Event where
  | preRunHook
  | onMessageDone (id : String)
  | createAndStream (threadId assistantId : String) (kwargs : RunKwargs)
  | submitToolOutputsStream (threadId runId : String) (outs : ToolOutputsResult)
  | cancelAPI (threadId runId : String)
  | retrieveAPI (threadId runId : String)
  | onException
  | postRunHook
deriving DecidableEq, Repr

/-- The `Run` pydantic model of `runs.py`.  External collaborators are
flattened into data: `threadId` is `self.thread.id`, `assistantId` is
`self.assistant.id`, and `assistantInstructions` / `assistantTools` are the
results of `self.assistant.get_instructions()` / `get_tools()`. -/
structure Run where
  threadId : String
  assistantId : String
  assistantInstructions : Option String
  assistantTools : List AssistantTool
  instructions : Option String
  additional_instructions : Option String
  tools : Option (List AssistantTool)
  additional_tools : Option (List AssistantTool)
  run : Option OpenAIRun
  data : Option String
  messagesDict : PyDict Message
  stepsDict : PyDict RunStep
deriving DecidableEq, Repr

/-- The `messages` property: `sorted(self._messages.values(), key=created_at)`. -/
def Run.messages (self : Run) : List Message :=
  pySorted Message.created_at (pyDictValues self.messagesDict)

/-- The `steps` property: `sorted(self._steps.values(), key=created_at)`. -/
def Run.steps (self : Run) : List RunStep :=
  pySorted RunStep.created_at (pyDictValues self.stepsDict)

/-- `Run.get_instructions`. -/
def Run.get_instructions (self : Run) : String :=
  let base :=
    match self.instructions with
    | none => self.assistantInstructions.getD ""
    | some i => i
  match self.additional_instructions with
  | none => base
  | some ai => base ++ "\n\n" ++ ai

/-- `Run.get_tools`. -/
def Run.get_tools (self : Run) : List AssistantTool :=
  (match self.tools with
   | none => self.assistantTools
   | some ts => ts) ++
  (match self.additional_tools with
   | none => []
   | some ts => ts)

/-- The `for tool_call in ...tool_calls` loop of `Run.get_tool_outputs`:
call each tool, turning a non-`CancelRun` exception into an error-message
output and re-raising `CancelRun`; append `dict(tool_call_id=..,
output=output or "")` for every call. -/
def processToolCalls (callTool : CallTool) (tools : List AssistantTool) :
    List ToolCall → Except PyExc (List ToolOutput)
  | [] => Except.ok []
  | tc :: rest =>
    match callTool tools tc.function.name tc.function.arguments with
    | ToolCallResult.raiseCancelRun d => Except.error (PyExc.cancelRun d)
    | ToolCallResult.ok o =>
      (processToolCalls callTool tools rest).map
        (fun l => { tool_call_id := tc.id, output := o.getD "" } :: l)
    | ToolCallResult.raiseError m =>
      (processToolCalls callTool tools rest).map
        (fun l =>
          { tool_call_id := tc.id,
            output := "Error calling function " ++ tc.function.name ++ ": " ++ m } :: l)

/-- `Run.get_tool_outputs`. -/
def Run.get_tool_outputs (callTool : CallTool) (self : Run) (run : OpenAIRun) :
    Except PyExc ToolOutputsResult :=
  if run.status ≠ "requires_action" then
    Except.ok ToolOutputsResult.nonePair
  else
    match run.required_action with
    | none => Except.error PyExc.attributeError
    | some ra =>
      if ra.type = "submit_tool_outputs" then
        (processToolCalls callTool self.get_tools ra.submit_tool_outputs.tool_calls).map
          ToolOutputsResult.outputs
      else
        Except.ok ToolOutputsResult.noneValue

/-- `Run.refresh_async`: raise `ValueError` when no run exists, otherwise
retrieve the run object from the server and store it. -/
def Run.refresh_async (env : ClientEnv) (self : Run) :
    Option PyExc × Run × List Event :=
  match self.run with
  | none => (some (PyExc.valueError "Run has not been created yet."), self, [])
  | some r =>
    (none, { self with run := some env.retrieveResult },
     [Event.retrieveAPI self.threadId r.id])

/-- `Run.cancel_async`: raise `ValueError` when no run exists, otherwise
issue the cancel request and refresh. -/
def Run.cancel_async (env : ClientEnv) (self : Run) :
    Option PyExc × Run × List Event :=
  match self.run with
  | none => (some (PyExc.valueError "Run has not been created yet."), self, [])
  | some r =>
    match self.refresh_async env with
    | (e, st, evs) => (e, st, Event.cancelAPI self.threadId r.id :: evs)

/-- The `run_kwargs` dict built at the top of `Run.run_async`. -/
def Run.runKwargs (self : Run) : RunKwargs :=
  { instructions :=
      if self.instructions.isSome ∨ self.additional_instructions.isSome then
        some self.get_instructions
      else none,
    tools :=
      if self.tools.isSome ∨ self.additional_tools.isSome then
        some self.get_tools
      else none }

/-- Folding one drained stream's final handler state into the `Run`:
`self.run = handler.current_run` and the `_messages` / `_steps` dict
updates keyed by id. -/
def Run.applyHandlerResult (self : Run) (hr : HandlerResult) : Run :=
  { self with
    run := some hr.current_run,
    messagesDict :=
      pyDictUpdate self.messagesDict (hr.final_messages.map (fun m => (m.id, m))),
    stepsDict :=
      pyDictUpdate self.stepsDict (hr.final_run_steps.map (fun s => (s.id, s))) }

/-- How the `try` block of `run_async` ends: normally, with a raised
exception, or with the environment providing no further stream results while
the run still requires action. -/
inductive LoopRes where
  | completed
  | raised (e : PyExc)
  | outOfFuel
deriving DecidableEq, Repr

/-- The `while handler.current_run.status in ["requires_action"]` loop of
`run_async`: compute tool outputs (exceptions propagate), open a
`submit_tool_outputs_stream`, drain it, fold the handler state into `self`,
and repeat with the new handler's current run. -/
def runLoop (callTool : CallTool) (self : Run) (cur : OpenAIRun)
    (results : List HandlerResult) : LoopRes × Run × List Event :=
  if cur.status = "requires_action" then
    match Run.get_tool_outputs callTool self cur with
    | Except.error e => (LoopRes.raised e, self, [])
    | Except.ok touts =>
      match self.run with
      | none => (LoopRes.raised PyExc.attributeError, self, [])
      | some r =>
        let ev := Event.submitToolOutputsStream self.threadId r.id touts
        match results with
        | [] => (LoopRes.outOfFuel, self, [ev])
        | hr :: rest =>
          match runLoop callTool (self.applyHandlerResult hr) hr.current_run rest with
          | (res, st, evs) => (res, st, ev :: evs)
  else
    (LoopRes.completed, self, [])

/-- The body of the `try` block of `run_async`: pre-run hook, replay of the
initial messages to the handler, `create_and_stream` drained into `self`,
then the resubmission loop. -/
def Run.runBody (callTool : CallTool) (env : ClientEnv) (self : Run) :
    LoopRes × Run × List Event :=
  let evs0 :=
    Event.preRunHook ::
      self.messages.map (fun m => Event.onMessageDone m.id) ++
      [Event.createAndStream self.threadId self.assistantId self.runKwargs]
  let self1 := self.applyHandlerResult env.firstResult
  match runLoop callTool self1 env.firstResult.current_run env.nextResults with
  | (res, st, evs) => (res, st, evs0 ++ evs)

/-- How `run_async` itself ends: returning `self`, propagating an exception,
or (a modelling artefact) running out of environment-provided streams. -/
inductive RunRes where
  | returned
  | raised (e : PyExc)
  | outOfFuel
deriving DecidableEq, Repr

/-- `Run.run_async`: refuse to overwrite an existing run, execute the body,
catch `CancelRun` by cancelling the server-side run and storing the
exception's data, report any other exception to the handler and re-raise,
and finally invoke the post-run hook and return `self`. -/
def Run.run_async (callTool : CallTool) (env : ClientEnv) (self : Run) :
    RunRes × Run × List Event :=
  if self.run.isSome then
    (RunRes.raised
       (PyExc.valueError "This run object was provided an ID; can not create a new run."),
     self, [])
  else
    match self.runBody callTool env with
    | (LoopRes.completed, st, evs) =>
      (RunRes.returned, st, evs ++ [Event.postRunHook])
    | (LoopRes.outOfFuel, st, evs) => (RunRes.outOfFuel, st, evs)
    | (LoopRes.raised (PyExc.cancelRun d), st, evs) =>
      match st.cancel_async env with
      | (some exc, st2, evs2) => (RunRes.raised exc, st2, evs ++ evs2)
      | (none, st2, evs2) =>
        (RunRes.returned, { st2 with data := d }, evs ++ evs2 ++ [Event.postRunHook])
    | (LoopRes.raised e, st, evs) =>
      (RunRes.raised e, st, evs ++ [Event.onException])

/-! ## Supporting definitions and lemmas -/

/-- The output entry the loop body of `get_tool_outputs` produces for one
tool call (the `raiseCancelRun` branch is arbitrary: the loop never builds an
entry in that case, it re-raises). -/
def specToolOutput (callTool : CallTool) (tools : List AssistantTool)
    (tc : ToolCall) : ToolOutput :=
  { tool_call_id := tc.id,
    output :=
      match callTool tools tc.function.name tc.function.arguments with
      | ToolCallResult.ok o => o.getD ""
      | ToolCallResult.raiseError m =>
        "Error calling function " ++ tc.function.name ++ ": " ++ m
      | ToolCallResult.raiseCancelRun _ => "" }

/-! ## Concrete instances used to witness the theorems -/

def wTool : AssistantTool := { name := "f" }

def wToolG : AssistantTool := { name := "g" }

def wSelf : Run :=
  { threadId := "t", assistantId := "a",
    assistantInstructions := some "base", assistantTools := [wTool, wToolG],
    instructions := none, additional_instructions := some "extra",
    tools := none, additional_tools := none,
    run := none, data := none, messagesDict := [], stepsDict := [] }

def wSelfI : Run := { wSelf with instructions := some "inst", additional_instructions := none }

def wSelfT : Run := { wSelf with tools := some [wToolG], additional_tools := none }

def wTc : ToolCall := { id := "call1", function := { name := "f", arguments := "args" } }

def wTcG : ToolCall := { id := "call2", function := { name := "g", arguments := "argsg" } }

def wRA : RequiredAction :=
  { type := "submit_tool_outputs", submit_tool_outputs := { tool_calls := [wTc] } }

def wRA2 : RequiredAction :=
  { type := "submit_tool_outputs", submit_tool_outputs := { tool_calls := [wTc, wTcG] } }

def wRAOther : RequiredAction :=
  { type := "other", submit_tool_outputs := { tool_calls := [] } }

def wRunReq : OpenAIRun :=
  { id := "r1", status := "requires_action", required_action := some wRA }

def wRunReq2 : OpenAIRun :=
  { id := "r1", status := "requires_action", required_action := some wRA2 }

def wRunOther : OpenAIRun :=
  { id := "r1", status := "requires_action", required_action := some wRAOther }

def wRunDone : OpenAIRun :=
  { id := "r1", status := "completed", required_action := none }

def wSelfReq : Run := { wSelf with run := some wRunReq }

def wSelfDict : Run :=
  { wSelf with
    messagesDict := [("m1", { id := "m1", created_at := 5 }), ("m0", { id := "m0", created_at := 2 })],
    stepsDict := [("s1", { id := "s1", created_at := 3 })] }

def wHrReq : HandlerResult :=
  { current_run := wRunReq,
    final_messages := [{ id := "m1", created_at := 5 }],
    final_run_steps := [] }

def wHrDone : HandlerResult :=
  { current_run := wRunDone,
    final_messages := [{ id := "m1", created_at := 7 }],
    final_run_steps := [{ id := "s1", created_at := 9 }] }

def wEnv : ClientEnv :=
  { firstResult := wHrReq, nextResults := [wHrDone],
    retrieveResult := { id := "r1", status := "cancelled", required_action := none } }

def wCallOk : CallTool := fun _ _ _ => ToolCallResult.ok (some "res")

def wCallMixed : CallTool := fun _ n _ =>
  if n = "f" then ToolCallResult.ok (some "res") else ToolCallResult.raiseError "boom"

def wCallCancel : CallTool := fun _ _ _ => ToolCallResult.raiseCancelRun (some "bye")

theorem processToolCalls_ok (callTool : CallTool) (tools : List AssistantTool)
    (calls : List ToolCall)
    (h : ∀ tc ∈ calls, ∀ d,
      callTool tools tc.function.name tc.function.arguments ≠
        ToolCallResult.raiseCancelRun d) :
    processToolCalls callTool tools calls =
      Except.ok (calls.map (specToolOutput callTool tools)) := by
  induction calls with
  | nil => rfl
  | cons tc rest ih =>
    have hrest : ∀ tc' ∈ rest, ∀ d,
        callTool tools tc'.function.name tc'.function.arguments ≠
          ToolCallResult.raiseCancelRun d :=
      fun tc' hm => h tc' (List.mem_cons_of_mem _ hm)
    have htc := h tc (List.mem_cons_self _ _)
    cases hc : callTool tools tc.function.name tc.function.arguments with
    | raiseCancelRun d => exact absurd hc (htc d)
    | ok o =>
      simp [processToolCalls, hc, ih hrest, specToolOutput, Except.map]
    | raiseError m =>
      simp [processToolCalls, hc, ih hrest, specToolOutput, Except.map]

theorem processToolCalls_cancel (callTool : CallTool) (tools : List AssistantTool)
    (pre post : List ToolCall) (tc : ToolCall) (d : Option String)
    (hpre : ∀ tc' ∈ pre, ∀ d',
      callTool tools tc'.function.name tc'.function.arguments ≠
        ToolCallResult.raiseCancelRun d')
    (htc : callTool tools tc.function.name tc.function.arguments =
      ToolCallResult.raiseCancelRun d) :
    processToolCalls callTool tools (pre ++ tc :: post) =
      Except.error (PyExc.cancelRun d) := by
  induction pre with
  | nil => simp [processToolCalls, htc]
  | cons tc' rest ih =>
    have hrest : ∀ tc'' ∈ rest, ∀ d',
        callTool tools tc''.function.name tc''.function.arguments ≠
          ToolCallResult.raiseCancelRun d' :=
      fun tc'' hm => hpre tc'' (List.mem_cons_of_mem _ hm)
    have htc' := hpre tc' (List.mem_cons_self _ _)
    cases hc : callTool tools tc'.function.name tc'.function.arguments with
    | raiseCancelRun d' => exact absurd hc (htc' d')
    | ok o => simp [processToolCalls, hc, ih hrest, Except.map]
    | raiseError m => simp [processToolCalls, hc, ih hrest, Except.map]

/-! ## Claims about the pure configuration and tool-output methods -/

/-- C2: for every run whose status is `requires_action` and whose required
action type is `submit_tool_outputs`, `get_tool_outputs` returns one entry
per tool call, in the order of `required_action.submit_tool_outputs
.tool_calls`, each entry pairing the call's id with the string result of the
local tool call (the empty string when that result is `None` or falsy). -/
theorem c2_tool_outputs_one_entry_per_call (callTool : CallTool) (self : Run)
    (run : OpenAIRun) (ra : RequiredAction)
    (h1 : run.status = "requires_action")
    (h2 : run.required_action = some ra)
    (h3 : ra.type = "submit_tool_outputs")
    (h4 : ∀ tc ∈ ra.submit_tool_outputs.tool_calls, ∃ o,
      callTool self.get_tools tc.function.name tc.function.arguments =
        ToolCallResult.ok o) :
    Run.get_tool_outputs callTool self run =
      Except.ok (ToolOutputsResult.outputs
        (ra.submit_tool_outputs.tool_calls.map
          (specToolOutput callTool self.get_tools))) ∧
    (ra.submit_tool_outputs.tool_calls.map
        (specToolOutput callTool self.get_tools)).length =
      ra.submit_tool_outputs.tool_calls.length ∧
    (∀ tc ∈ ra.submit_tool_outputs.tool_calls, ∀ o,
      callTool self.get_tools tc.function.name tc.function.arguments =
          ToolCallResult.ok o →
        specToolOutput callTool self.get_tools tc =
          { tool_call_id := tc.id, output := o.getD "" }) := by
  refine ⟨?_, List.length_map _ _, ?_⟩
  · have hnc : ∀ tc ∈ ra.submit_tool_outputs.tool_calls, ∀ d,
        callTool self.get_tools tc.function.name tc.function.arguments ≠
          ToolCallResult.raiseCancelRun d := by
      intro tc hm d hEq
      obtain ⟨o, ho⟩ := h4 tc hm
      rw [ho] at hEq
      exact ToolCallResult.noConfusion hEq
    simp [Run.get_tool_outputs, h1, h2, h3, Except.map,
      processToolCalls_ok callTool self.get_tools _ hnc]
  · intro tc _ o ho
    simp [specToolOutput, ho]

/-- C3: during `get_tool_outputs`, a non-`CancelRun` exception from a tool
call does not propagate: that call's entry is the string
`"Error calling function {name}: {exc}"`, the remaining calls are still
executed and every call gets an entry; a `CancelRun` exception propagates
out of `get_tool_outputs`. -/
theorem c3_tool_errors_captured_cancel_propagates (callTool : CallTool)
    (self : Run) (run : OpenAIRun) (ra : RequiredAction)
    (h1 : run.status = "requires_action")
    (h2 : run.required_action = some ra)
    (h3 : ra.type = "submit_tool_outputs") :
    ((∀ tc ∈ ra.submit_tool_outputs.tool_calls, ∀ d,
        callTool self.get_tools tc.function.name tc.function.arguments ≠
          ToolCallResult.raiseCancelRun d) →
      Run.get_tool_outputs callTool self run =
        Except.ok (ToolOutputsResult.outputs
          (ra.submit_tool_outputs.tool_calls.map
            (specToolOutput callTool self.get_tools))) ∧
      (∀ tc ∈ ra.submit_tool_outputs.tool_calls, ∀ m,
        callTool self.get_tools tc.function.name tc.function.arguments =
            ToolCallResult.raiseError m →
          specToolOutput callTool self.get_tools tc =
            { tool_call_id := tc.id,
              output := "Error calling function " ++ tc.function.name ++
                ": " ++ m })) ∧
    (∀ pre tc post d,
      ra.submit_tool_outputs.tool_calls = pre ++ tc :: post →
      (∀ tc' ∈ pre, ∀ d',
        callTool self.get_tools tc'.function.name tc'.function.arguments ≠
          ToolCallResult.raiseCancelRun d') →
      callTool self.get_tools tc.function.name tc.function.arguments =
          ToolCallResult.raiseCancelRun d →
      Run.get_tool_outputs callTool self run =
        Except.error (PyExc.cancelRun d)) := by
  constructor
  · intro hnc
    constructor
    · simp [Run.get_tool_outputs, h1, h2, h3, Except.map,
        processToolCalls_ok callTool self.get_tools _ hnc]
    · intro tc _ m hm
      simp [specToolOutput, hm]
  · intro pre tc post d hsplit hpre htc
    simp [Run.get_tool_outputs, h1, h2, h3, hsplit, Except.map,
      processToolCalls_cancel callTool self.get_tools pre post tc d hpre htc]

/-- C4: `get_instructions` returns `self.instructions` when set, otherwise
the assistant's instructions (or `""` when those are `None`); when
`additional_instructions` is set, the result is the base instructions and
the additional instructions joined by `"\n\n"`. -/
theorem c4_get_instructions_cases (self : Run) :
    (∀ i, self.instructions = some i → self.additional_instructions = none →
      self.get_instructions = i) ∧
    (∀ i a, self.instructions = some i → self.additional_instructions = some a →
      self.get_instructions = i ++ "\n\n" ++ a) ∧
    (∀ s, self.instructions = none → self.assistantInstructions = some s →
      self.additional_instructions = none → self.get_instructions = s) ∧
    (self.instructions = none → self.assistantInstructions = none →
      self.additional_instructions = none → self.get_instructions = "") ∧
    (∀ a, self.instructions = none → self.additional_instructions = some a →
      self.get_instructions = self.assistantInstructions.getD "" ++ "\n\n" ++ a) := by
  refine ⟨?_, ?_, ?_, ?_, ?_⟩
  · intro i h1 h2; simp [Run.get_instructions, h1, h2]
  · intro i a h1 h2; simp [Run.get_instructions, h1, h2]
  · intro s h1 h2 h3; simp [Run.get_instructions, h1, h2, h3]
  · intro h1 h2 h3; simp [Run.get_instructions, h1, h2, h3]
  · intro a h1 h2; simp [Run.get_instructions, h1, h2]

/-- C5: `get_tools` returns the assistant's tools when `self.tools` is
`None` and `self.tools` otherwise, followed in order by `additional_tools`
when set; replacement tools fully replace the assistant's tools. -/
theorem c5_get_tools_cases (self : Run) :
    (self.tools = none →
      self.get_tools = self.assistantTools ++ self.additional_tools.getD []) ∧
    (∀ ts, self.tools = some ts →
      self.get_tools = ts ++ self.additional_tools.getD []) ∧
    (∀ ts, self.tools = some ts → self.additional_tools = none →
      self.get_tools = ts) := by
  refine ⟨?_, ?_, ?_⟩
  · intro h
    cases ha : self.additional_tools <;> simp [Run.get_tools, h, ha]
  · intro ts h
    cases ha : self.additional_tools <;> simp [Run.get_tools, h, ha]
  · intro ts h ha; simp [Run.get_tools, h, ha]

/-- C9: when the run's status is not `requires_action`, `get_tool_outputs`
returns the tuple `(None, None)` rather than a list; when the status is
`requires_action` but the required action type is not `submit_tool_outputs`,
it returns the implicit `None`. -/
theorem c9_tool_outputs_none_shapes (callTool : CallTool) (self : Run)
    (run : OpenAIRun) :
    (run.status ≠ "requires_action" →
      Run.get_tool_outputs callTool self run =
        Except.ok ToolOutputsResult.nonePair) ∧
    (∀ ra, run.status = "requires_action" → run.required_action = some ra →
      ra.type ≠ "submit_tool_outputs" →
      Run.get_tool_outputs callTool self run =
        Except.ok ToolOutputsResult.noneValue) := by
  constructor
  · intro h; simp [Run.get_tool_outputs, h]
  · intro ra h1 h2 h3; simp [Run.get_tool_outputs, h1, h2, h3]

/-! ## Dictionary and sorting lemmas -/

theorem pySorted_pairwise (key : α → Nat) (l : List α) :
    List.Pairwise (fun a b => key a ≤ key b) (pySorted key l) :=
  @List.sorted_insertionSort α (fun a b => key a ≤ key b) _
    ⟨fun a b => Nat.le_total (key a) (key b)⟩
    ⟨fun _ _ _ hab hbc => Nat.le_trans hab hbc⟩ l

theorem pySorted_perm (key : α → Nat) (l : List α) :
    (pySorted key l).Perm l :=
  List.perm_insertionSort _ l

theorem pyDictAny_eq (d : PyDict α) (k : String) :
    (d.any (fun p => p.1 = k)) = true ↔ k ∈ pyDictKeys d := by
  simp [List.any_eq_true, pyDictKeys, List.mem_map]

theorem pyDictInsert_keys (d : PyDict α) (k : String) (v : α) :
    pyDictKeys (pyDictInsert d k v) =
      if k ∈ pyDictKeys d then pyDictKeys d else pyDictKeys d ++ [k] := by
  by_cases h : k ∈ pyDictKeys d
  · rw [if_pos h]
    unfold pyDictInsert
    rw [if_pos ((pyDictAny_eq d k).mpr h)]
    unfold pyDictKeys
    rw [List.map_map]
    apply List.map_congr_left
    intro p _
    by_cases hpk : p.1 = k
    · simp [hpk]
    · simp [hpk]
  · rw [if_neg h]
    unfold pyDictInsert
    rw [if_neg (fun hc => h ((pyDictAny_eq d k).mp hc))]
    simp [pyDictKeys]

theorem pyDictInsert_keys_nodup (d : PyDict α) (k : String) (v : α)
    (h : (pyDictKeys d).Nodup) : (pyDictKeys (pyDictInsert d k v)).Nodup := by
  rw [pyDictInsert_keys]
  by_cases hk : k ∈ pyDictKeys d
  · rw [if_pos hk]; exact h
  · rw [if_neg hk]
    refine List.Nodup.append h (List.nodup_singleton k) ?_
    intro a ha hb
    rw [List.mem_singleton] at hb
    subst hb
    exact hk ha

theorem pyDictUpdate_keys_nodup (items : List (String × α)) :
    ∀ d : PyDict α, (pyDictKeys d).Nodup →
      (pyDictKeys (pyDictUpdate d items)).Nodup := by
  induction items with
  | nil => intro d h; exact h
  | cons p rest ih =>
    intro d h
    unfold pyDictUpdate
    rw [List.foldl_cons]
    exact ih (pyDictInsert d p.1 p.2) (pyDictInsert_keys_nodup d p.1 p.2 h)

theorem pyDictInsert_mem (d : PyDict α) (k : String) (v : α) (p : String × α)
    (h : p ∈ pyDictInsert d k v) : p ∈ d ∨ p = (k, v) := by
  unfold pyDictInsert at h
  by_cases hc : (d.any (fun q => q.1 = k)) = true
  · rw [if_pos hc] at h
    obtain ⟨q, hq, he⟩ := List.mem_map.mp h
    by_cases hqk : q.1 = k
    · right; rw [if_pos hqk] at he; exact he.symm
    · left; rw [if_neg hqk] at he; rw [← he]; exact hq
  · rw [if_neg hc] at h
    rcases List.mem_append.mp h with h1 | h2
    · left; exact h1
    · right; simpa using h2

theorem pyDictUpdate_wellKeyed (f : α → String) (items : List (String × α)) :
    ∀ d : PyDict α, (∀ p ∈ d, p.1 = f p.2) → (∀ p ∈ items, p.1 = f p.2) →
      ∀ p ∈ pyDictUpdate d items, p.1 = f p.2 := by
  induction items with
  | nil => intro d hd _ p hp; exact hd p hp
  | cons q rest ih =>
    intro d hd hi p hp
    unfold pyDictUpdate at hp
    rw [List.foldl_cons] at hp
    refine ih (pyDictInsert d q.1 q.2) ?_
      (fun p' hp' => hi p' (List.mem_cons_of_mem _ hp')) p hp
    intro p' hp'
    rcases pyDictInsert_mem d q.1 q.2 p' hp' with h | h
    · exact hd p' h
    · rw [h]; exact hi q (List.mem_cons_self _ _)

theorem pyDict_find_replaced (d : PyDict α) (k : String) (v : α)
    (h : k ∈ pyDictKeys d) :
    (d.map (fun p => if p.1 = k then (k, v) else p)).find?
      (fun p => p.1 = k) = some (k, v) := by
  induction d with
  | nil => simp [pyDictKeys] at h
  | cons q rest ih =>
    by_cases hqk : q.1 = k
    · simp [List.find?, hqk]
    · have hmem : k ∈ pyDictKeys rest := by
        simp [pyDictKeys] at h ⊢
        rcases h with h | h
        · exact absurd h (fun he => hqk he.symm)
        · exact h
      simp [List.find?, hqk, ih hmem]

theorem pyDictGet_insert_of_mem (d : PyDict α) (k : String) (v : α)
    (h : k ∈ pyDictKeys d) : pyDictGet (pyDictInsert d k v) k = some v := by
  unfold pyDictGet pyDictInsert
  rw [if_pos ((pyDictAny_eq d k).mpr h)]
  rw [pyDict_find_replaced d k v h]
  rfl

theorem pyDictInsert_length_of_mem (d : PyDict α) (k : String) (v : α)
    (h : k ∈ pyDictKeys d) : (pyDictInsert d k v).length = d.length := by
  unfold pyDictInsert
  rw [if_pos ((pyDictAny_eq d k).mpr h)]
  exact List.length_map d _

/-- C6: the `messages` and `steps` properties return the materialized
messages and run steps sorted ascending by `created_at`, with at most one
entry per id; when a stream reports a message or step whose id is already
recorded, the later object replaces the earlier one in place rather than
being duplicated, and folding a stream's final state preserves the
one-entry-per-id invariant. -/
theorem c6_messages_steps_sorted_unique (self : Run)
    (hmN : (pyDictKeys self.messagesDict).Nodup)
    (hsN : (pyDictKeys self.stepsDict).Nodup)
    (hmK : ∀ p ∈ self.messagesDict, p.1 = p.2.id)
    (hsK : ∀ p ∈ self.stepsDict, p.1 = p.2.id) :
    List.Pairwise (fun a b : Message => a.created_at ≤ b.created_at) self.messages ∧
    self.messages.Perm (pyDictValues self.messagesDict) ∧
    (self.messages.map Message.id).Nodup ∧
    List.Pairwise (fun a b : RunStep => a.created_at ≤ b.created_at) self.steps ∧
    self.steps.Perm (pyDictValues self.stepsDict) ∧
    (self.steps.map RunStep.id).Nodup ∧
    (∀ (k : String) (m : Message), k ∈ pyDictKeys self.messagesDict →
      pyDictGet (pyDictInsert self.messagesDict k m) k = some m ∧
      (pyDictInsert self.messagesDict k m).length = self.messagesDict.length) ∧
    (∀ hr : HandlerResult,
      (pyDictKeys (self.applyHandlerResult hr).messagesDict).Nodup ∧
      (pyDictKeys (self.applyHandlerResult hr).stepsDict).Nodup ∧
      (∀ p ∈ (self.applyHandlerResult hr).messagesDict, p.1 = p.2.id) ∧
      (∀ p ∈ (self.applyHandlerResult hr).stepsDict, p.1 = p.2.id)) := by
  have hmIds : (pyDictValues self.messagesDict).map Message.id =
      pyDictKeys self.messagesDict := by
    unfold pyDictValues pyDictKeys
    rw [List.map_map]
    apply List.map_congr_left
    intro p hp
    exact (hmK p hp).symm
  have hsIds : (pyDictValues self.stepsDict).map RunStep.id =
      pyDictKeys self.stepsDict := by
    unfold pyDictValues pyDictKeys
    rw [List.map_map]
    apply List.map_congr_left
    intro p hp
    exact (hsK p hp).symm
  refine ⟨pySorted_pairwise _ _, pySorted_perm _ _, ?_,
    pySorted_pairwise _ _, pySorted_perm _ _, ?_, ?_, ?_⟩
  · have hperm : (self.messages.map Message.id).Perm
        ((pyDictValues self.messagesDict).map Message.id) :=
      List.Perm.map _ (pySorted_perm _ _)
    refine hperm.symm.nodup ?_
    rw [hmIds]
    exact hmN
  · have hperm : (self.steps.map RunStep.id).Perm
        ((pyDictValues self.stepsDict).map RunStep.id) :=
      List.Perm.map _ (pySorted_perm _ _)
    refine hperm.symm.nodup ?_
    rw [hsIds]
    exact hsN
  · intro k m hk
    exact ⟨pyDictGet_insert_of_mem _ k m hk, pyDictInsert_length_of_mem _ k m hk⟩
  · intro hr
    refine ⟨pyDictUpdate_keys_nodup _ _ hmN, pyDictUpdate_keys_nodup _ _ hsN, ?_, ?_⟩
    · refine pyDictUpdate_wellKeyed Message.id _ _ hmK ?_
      intro p hp
      obtain ⟨m, _, he⟩ := List.mem_map.mp hp
      rw [← he]
    · refine pyDictUpdate_wellKeyed RunStep.id _ _ hsK ?_
      intro p hp
      obtain ⟨s, _, he⟩ := List.mem_map.mp hp
      rw [← he]

/-! ## Lemmas about the run loop and run body -/
theorem applyHandlerResult_run (self : Run) (hr : HandlerResult) :
    (self.applyHandlerResult hr).run = some hr.current_run := rfl

theorem runLoop_run_isSome (callTool : CallTool) (results : List HandlerResult) :
    ∀ (self : Run) (cur : OpenAIRun), self.run.isSome →
      (runLoop callTool self cur results).2.1.run.isSome := by
  induction results with
  | nil =>
    intro self cur h
    unfold runLoop
    split
    · split
      · exact h
      · split
        · simp_all
        · exact h
    · exact h
  | cons hr0 rest ih =>
    intro self cur h
    unfold runLoop
    split
    · split
      · exact h
      · split
        · simp_all
        · have hrec := ih (self.applyHandlerResult hr0) hr0.current_run (by simp [applyHandlerResult_run])
          rcases hq : runLoop callTool (self.applyHandlerResult hr0) hr0.current_run rest with ⟨res, st, evs⟩
          rw [hq] at hrec
          simp [hq]
          exact hrec
    · exact h

theorem processToolCalls_error (callTool : CallTool) (tools : List AssistantTool)
    (calls : List ToolCall) (e : PyExc)
    (h : processToolCalls callTool tools calls = Except.error e) :
    ∃ d, e = PyExc.cancelRun d := by
  induction calls with
  | nil => exact absurd h (by simp [processToolCalls])
  | cons tc rest ih =>
    unfold processToolCalls at h
    cases hc : callTool tools tc.function.name tc.function.arguments with
    | raiseCancelRun d =>
      rw [hc] at h
      exact ⟨d, ((Except.error.injEq _ _).mp h).symm⟩
    | ok o =>
      rw [hc] at h
      cases hp : processToolCalls callTool tools rest with
      | error e' =>
        rw [hp] at h
        simp [Except.map] at h
        subst h
        exact ih hp
      | ok l => rw [hp] at h; simp [Except.map] at h
    | raiseError m =>
      rw [hc] at h
      cases hp : processToolCalls callTool tools rest with
      | error e' =>
        rw [hp] at h
        simp [Except.map] at h
        subst h
        exact ih hp
      | ok l => rw [hp] at h; simp [Except.map] at h

theorem get_tool_outputs_error (callTool : CallTool) (self : Run)
    (run : OpenAIRun) (e : PyExc)
    (h : Run.get_tool_outputs callTool self run = Except.error e) :
    e = PyExc.attributeError ∨ ∃ d, e = PyExc.cancelRun d := by
  unfold Run.get_tool_outputs at h
  by_cases hs : run.status = "requires_action"
  · cases hra : run.required_action with
    | none => simp [hs, hra] at h; left; exact h.symm
    | some ra =>
      by_cases ht : ra.type = "submit_tool_outputs"
      · cases hp : processToolCalls callTool self.get_tools ra.submit_tool_outputs.tool_calls with
        | error e' =>
          simp [hs, hra, ht, hp, Except.map] at h
          subst h
          exact Or.inr (processToolCalls_error _ _ _ _ hp)
        | ok l => simp [hs, hra, ht, hp, Except.map] at h
      · simp [hs, hra, ht] at h
  · simp [hs] at h

theorem runLoop_raised (callTool : CallTool) (results : List HandlerResult) :
    ∀ (self : Run) (cur : OpenAIRun) (e : PyExc) (st : Run) (evs : List Event),
      runLoop callTool self cur results = (LoopRes.raised e, st, evs) →
      e = PyExc.attributeError ∨ ∃ d, e = PyExc.cancelRun d := by
  induction results with
  | nil =>
    intro self cur e st evs h
    unfold runLoop at h
    by_cases hs : cur.status = "requires_action"
    · rw [if_pos hs] at h
      cases hg : Run.get_tool_outputs callTool self cur with
      | error e' =>
        rw [hg] at h
        simp at h
        obtain ⟨he, -, -⟩ := h
        subst he
        exact get_tool_outputs_error callTool self cur _ hg
      | ok touts =>
        rw [hg] at h
        cases hr : self.run with
        | none =>
          rw [hr] at h
          simp at h
          left
          exact h.1.symm
        | some r => rw [hr] at h; simp at h
    · rw [if_neg hs] at h; simp at h
  | cons hr0 rest ih =>
    intro self cur e st evs h
    unfold runLoop at h
    by_cases hs : cur.status = "requires_action"
    · rw [if_pos hs] at h
      cases hg : Run.get_tool_outputs callTool self cur with
      | error e' =>
        rw [hg] at h
        simp at h
        obtain ⟨he, -, -⟩ := h
        subst he
        exact get_tool_outputs_error callTool self cur _ hg
      | ok touts =>
        rw [hg] at h
        cases hr : self.run with
        | none =>
          rw [hr] at h
          simp at h
          left
          exact h.1.symm
        | some r =>
          rw [hr] at h
          simp at h
          rcases hq : runLoop callTool (self.applyHandlerResult hr0) hr0.current_run rest with ⟨res, st', evs'⟩
          rw [hq] at h
          simp at h
          rw [h.1] at hq
          exact ih _ _ _ _ _ hq
    · rw [if_neg hs] at h; simp at h

theorem runLoop_completed (callTool : CallTool) (results : List HandlerResult) :
    ∀ (self : Run) (cur : OpenAIRun) (st : Run) (evs : List Event),
      self.run = some cur →
      runLoop callTool self cur results = (LoopRes.completed, st, evs) →
      ∃ fr, st.run = some fr ∧ fr.status ≠ "requires_action" := by
  induction results with
  | nil =>
    intro self cur st evs hrun h
    unfold runLoop at h
    by_cases hs : cur.status = "requires_action"
    · rw [if_pos hs] at h
      cases hg : Run.get_tool_outputs callTool self cur with
      | error e' => rw [hg] at h; simp at h
      | ok touts =>
        rw [hg, hrun] at h
        simp at h
    · rw [if_neg hs] at h
      simp at h
      refine ⟨cur, ?_, hs⟩
      rw [← h.1]
      exact hrun
  | cons hr0 rest ih =>
    intro self cur st evs hrun h
    unfold runLoop at h
    by_cases hs : cur.status = "requires_action"
    · rw [if_pos hs] at h
      cases hg : Run.get_tool_outputs callTool self cur with
      | error e' => rw [hg] at h; simp at h
      | ok touts =>
        rw [hg, hrun] at h
        simp at h
        rcases hq : runLoop callTool (self.applyHandlerResult hr0) hr0.current_run rest with ⟨res, st', evs'⟩
        rw [hq] at h
        simp at h
        obtain ⟨hres, hst, -⟩ := h
        rw [hres] at hq
        rw [← hst]
        exact ih _ _ _ _ (applyHandlerResult_run self hr0) hq
    · rw [if_neg hs] at h
      simp at h
      refine ⟨cur, ?_, hs⟩
      rw [← h.1]
      exact hrun

theorem runBody_run_isSome (callTool : CallTool) (env : ClientEnv) (self : Run) :
    (Run.runBody callTool env self).2.1.run.isSome := by
  unfold Run.runBody
  rcases hq : runLoop callTool (self.applyHandlerResult env.firstResult)
      env.firstResult.current_run env.nextResults with ⟨res, st, evs⟩
  have hsome := runLoop_run_isSome callTool env.nextResults
    (self.applyHandlerResult env.firstResult) env.firstResult.current_run
    (by simp [applyHandlerResult_run])
  rw [hq] at hsome
  simp [hq]
  exact hsome

theorem runBody_raised (callTool : CallTool) (env : ClientEnv) (self : Run)
    (e : PyExc) (st : Run) (evs : List Event)
    (h : Run.runBody callTool env self = (LoopRes.raised e, st, evs)) :
    e = PyExc.attributeError ∨ ∃ d, e = PyExc.cancelRun d := by
  unfold Run.runBody at h
  rcases hq : runLoop callTool (self.applyHandlerResult env.firstResult)
      env.firstResult.current_run env.nextResults with ⟨res, st', evs'⟩
  simp [hq] at h
  obtain ⟨hres, -, -⟩ := h
  rw [hres] at hq
  exact runLoop_raised callTool env.nextResults _ _ _ _ _ hq

theorem runBody_createAndStream_mem (callTool : CallTool) (env : ClientEnv)
    (self : Run) :
    Event.createAndStream self.threadId self.assistantId self.runKwargs ∈
      (Run.runBody callTool env self).2.2 := by
  unfold Run.runBody
  rcases hq : runLoop callTool (self.applyHandlerResult env.firstResult)
      env.firstResult.current_run env.nextResults with ⟨res, st, evs⟩
  simp [hq]

/-! ## Claims about the streamed-run control flow -/

/-- C1: after the initial streamed run, whenever the current run's status is
`requires_action` the tool outputs are computed and resubmitted via a new
stream and the loop repeats; the loop exits exactly when the current run's
status is not `requires_action`, at which point `self.run` holds the
handler's final run object (whose status is then not `requires_action`). -/
theorem c1_loop_until_not_requires_action (callTool : CallTool) (self : Run)
    (cur : OpenAIRun) (results : List HandlerResult) :
    (cur.status ≠ "requires_action" →
      runLoop callTool self cur results = (LoopRes.completed, self, [])) ∧
    (∀ touts r hr rest,
      cur.status = "requires_action" →
      Run.get_tool_outputs callTool self cur = Except.ok touts →
      self.run = some r →
      results = hr :: rest →
      runLoop callTool self cur results =
        ((runLoop callTool (self.applyHandlerResult hr) hr.current_run rest).1,
         (runLoop callTool (self.applyHandlerResult hr) hr.current_run rest).2.1,
         Event.submitToolOutputsStream self.threadId r.id touts ::
           (runLoop callTool (self.applyHandlerResult hr) hr.current_run rest).2.2)) ∧
    (∀ st evs, self.run = some cur →
      runLoop callTool self cur results = (LoopRes.completed, st, evs) →
      ∃ fr, st.run = some fr ∧ fr.status ≠ "requires_action") := by
  refine ⟨?_, ?_, ?_⟩
  · intro h
    unfold runLoop
    rw [if_neg h]
  · intro touts r hr rest hs hg hrun hres
    subst hres
    conv_lhs => unfold runLoop
    rw [if_pos hs, hg, hrun]
  · intro st evs hrun h
    exact runLoop_completed callTool results self cur st evs hrun h

/-- C7: `run_async` includes an `instructions` override in the streamed-run
creation request if and only if `instructions` or `additional_instructions`
is set, and a `tools` override if and only if `tools` or `additional_tools`
is set; when neither member of a pair is set the corresponding field is
absent. -/
theorem c7_run_kwargs_present_iff (callTool : CallTool) (env : ClientEnv)
    (self : Run) (h : self.run = none) :
    Event.createAndStream self.threadId self.assistantId self.runKwargs ∈
      (Run.run_async callTool env self).2.2 ∧
    (self.runKwargs.instructions.isSome ↔
      (self.instructions.isSome ∨ self.additional_instructions.isSome)) ∧
    ((self.instructions.isSome ∨ self.additional_instructions.isSome) →
      self.runKwargs.instructions = some self.get_instructions) ∧
    (self.instructions = none → self.additional_instructions = none →
      self.runKwargs.instructions = none) ∧
    (self.runKwargs.tools.isSome ↔
      (self.tools.isSome ∨ self.additional_tools.isSome)) ∧
    ((self.tools.isSome ∨ self.additional_tools.isSome) →
      self.runKwargs.tools = some self.get_tools) ∧
    (self.tools = none → self.additional_tools = none →
      self.runKwargs.tools = none) := by
  refine ⟨?_, ?_, ?_, ?_, ?_, ?_, ?_⟩
  · have hmem := runBody_createAndStream_mem callTool env self
    unfold Run.run_async
    simp only [h, Option.isSome_none, Bool.false_eq_true, if_false]
    rcases hb : Run.runBody callTool env self with ⟨res, st, evs⟩
    rw [hb] at hmem
    cases res with
    | completed => simp [hmem]
    | outOfFuel => simpa using hmem
    | raised e =>
      cases e with
      | valueError msg => simp [hmem]
      | attributeError => simp [hmem]
      | cancelRun d =>
        rcases hc : st.cancel_async env with ⟨oe, st2, evs2⟩
        cases oe with
        | none => simp [hc, hmem]
        | some exc => simp [hc, hmem]
  · by_cases hi : self.instructions.isSome ∨ self.additional_instructions.isSome
    · simp [Run.runKwargs, hi]
    · simp [Run.runKwargs, hi]
  · intro hi; simp [Run.runKwargs, hi]
  · intro h1 h2; simp [Run.runKwargs, h1, h2]
  · by_cases ht : self.tools.isSome ∨ self.additional_tools.isSome
    · simp [Run.runKwargs, ht]
    · simp [Run.runKwargs, ht]
  · intro ht; simp [Run.runKwargs, ht]
  · intro h1 h2; simp [Run.runKwargs, h1, h2]

/-- C8: if a tool call raises `CancelRun` during `run_async` (the try block
ends with a raised `CancelRun`), `run_async` propagates no exception: it
cancels the run on the server via `cancel_async` (a cancel request followed
by a retrieve), stores the exception's `data` in `self.data`, still invokes
the assistant's post-run hook, and returns `self` normally. -/
theorem c8_cancel_run_is_handled (callTool : CallTool) (env : ClientEnv)
    (self : Run) (d : Option String) (st : Run) (evs : List Event)
    (h0 : self.run = none)
    (hb : Run.runBody callTool env self = (LoopRes.raised (PyExc.cancelRun d), st, evs)) :
    ∃ r, st.run = some r ∧
      Run.run_async callTool env self =
        (RunRes.returned,
         { st with run := some env.retrieveResult, data := d },
         evs ++ [Event.cancelAPI st.threadId r.id,
                 Event.retrieveAPI st.threadId r.id, Event.postRunHook]) := by
  have hsome := runBody_run_isSome callTool env self
  rw [hb] at hsome
  simp only [Option.isSome_iff_exists] at hsome
  obtain ⟨r, hr⟩ := hsome
  refine ⟨r, hr, ?_⟩
  unfold Run.run_async
  simp only [h0, Option.isSome_none, Bool.false_eq_true, if_false]
  rw [hb]
  simp [Run.cancel_async, Run.refresh_async, hr]

/-- C10: `refresh_async` and `cancel_async` raise
`ValueError("Run has not been created yet.")` exactly when `self.run` is
unset, and `run_async` raises `ValueError("This run object was provided an
ID; can not create a new run.")` exactly when `self.run` is already set; in
each error case the method raises with no client request issued and with the
`Run` object's state unchanged. -/
theorem c10_guard_value_errors (callTool : CallTool) (env : ClientEnv)
    (self : Run) :
    ((Run.refresh_async env self).1 =
        some (PyExc.valueError "Run has not been created yet.") ↔
      self.run = none) ∧
    (self.run = none →
      Run.refresh_async env self =
        (some (PyExc.valueError "Run has not been created yet."), self, [])) ∧
    ((Run.cancel_async env self).1 =
        some (PyExc.valueError "Run has not been created yet.") ↔
      self.run = none) ∧
    (self.run = none →
      Run.cancel_async env self =
        (some (PyExc.valueError "Run has not been created yet."), self, [])) ∧
    ((Run.run_async callTool env self).1 =
        RunRes.raised (PyExc.valueError
          "This run object was provided an ID; can not create a new run.") ↔
      self.run.isSome) ∧
    (self.run.isSome →
      Run.run_async callTool env self =
        (RunRes.raised (PyExc.valueError
           "This run object was provided an ID; can not create a new run."),
         self, [])) := by
  refine ⟨?_, ?_, ?_, ?_, ⟨?_, ?_⟩, ?_⟩
  · cases hr : self.run with
    | none => simp [Run.refresh_async, hr]
    | some r => simp [Run.refresh_async, hr]
  · intro h; simp [Run.refresh_async, h]
  · cases hr : self.run with
    | none => simp [Run.cancel_async, hr]
    | some r => simp [Run.cancel_async, Run.refresh_async, hr]
  · intro h; simp [Run.cancel_async, h]
  · intro hres
    by_contra hns
    have h0 : self.run = none := Option.not_isSome_iff_eq_none.mp hns
    unfold Run.run_async at hres
    simp only [h0, Option.isSome_none, Bool.false_eq_true, if_false] at hres
    rcases hb : Run.runBody callTool env self with ⟨res, st, evs⟩
    rw [hb] at hres
    cases res with
    | completed => simp at hres
    | outOfFuel => simp at hres
    | raised e =>
      rcases runBody_raised callTool env self e st evs hb with he | ⟨d, he⟩
      · subst he
        simp at hres
      · subst he
        have hsome := runBody_run_isSome callTool env self
        rw [hb] at hsome
        simp only [Option.isSome_iff_exists] at hsome
        obtain ⟨r, hr⟩ := hsome
        simp [Run.cancel_async, Run.refresh_async, hr] at hres
  · intro hsome
    unfold Run.run_async
    simp [hsome]
  · intro hsome
    unfold Run.run_async
    simp [hsome]

/-! ## Witnesses: the theorems applied at concrete inputs -/

theorem c1_loop_witness :
    runLoop wCallOk wSelf wRunDone [] = (LoopRes.completed, wSelf, []) ∧
    runLoop wCallOk wSelfReq wRunReq [wHrDone] =
      ((runLoop wCallOk (wSelfReq.applyHandlerResult wHrDone) wHrDone.current_run []).1,
       (runLoop wCallOk (wSelfReq.applyHandlerResult wHrDone) wHrDone.current_run []).2.1,
       Event.submitToolOutputsStream wSelfReq.threadId wRunReq.id
           (ToolOutputsResult.outputs [{ tool_call_id := "call1", output := "res" }]) ::
         (runLoop wCallOk (wSelfReq.applyHandlerResult wHrDone) wHrDone.current_run []).2.2) ∧
    (∃ fr, (runLoop wCallOk wSelfReq wRunReq [wHrDone]).2.1.run = some fr ∧
      fr.status ≠ "requires_action") := by
  refine ⟨?_, ?_, ?_⟩
  · exact (c1_loop_until_not_requires_action wCallOk wSelf wRunDone []).1 (by decide)
  · exact (c1_loop_until_not_requires_action wCallOk wSelfReq wRunReq [wHrDone]).2.1
      (ToolOutputsResult.outputs [{ tool_call_id := "call1", output := "res" }])
      wRunReq wHrDone [] rfl rfl rfl rfl
  · exact (c1_loop_until_not_requires_action wCallOk wSelfReq wRunReq [wHrDone]).2.2
      (runLoop wCallOk wSelfReq wRunReq [wHrDone]).2.1
      (runLoop wCallOk wSelfReq wRunReq [wHrDone]).2.2 rfl (by decide)

theorem c2_witness :
    Run.get_tool_outputs wCallOk wSelf wRunReq =
      Except.ok (ToolOutputsResult.outputs
        (wRA.submit_tool_outputs.tool_calls.map
          (specToolOutput wCallOk wSelf.get_tools))) :=
  (c2_tool_outputs_one_entry_per_call wCallOk wSelf wRunReq wRA rfl rfl rfl
    (fun _ _ => ⟨some "res", rfl⟩)).1

theorem c3_witness :
    Run.get_tool_outputs wCallMixed wSelf wRunReq2 =
      Except.ok (ToolOutputsResult.outputs
        (wRA2.submit_tool_outputs.tool_calls.map
          (specToolOutput wCallMixed wSelf.get_tools))) ∧
    Run.get_tool_outputs wCallCancel wSelf wRunReq =
      Except.error (PyExc.cancelRun (some "bye")) := by
  constructor
  · refine ((c3_tool_errors_captured_cancel_propagates wCallMixed wSelf wRunReq2 wRA2
      rfl rfl rfl).1 ?_).1
    intro tc hm d hc
    simp [wRA2, wTc, wTcG] at hm
    rcases hm with hm | hm <;> subst hm <;> simp [wCallMixed, wTc, wTcG] at hc
  · exact (c3_tool_errors_captured_cancel_propagates wCallCancel wSelf wRunReq wRA
      rfl rfl rfl).2 [] wTc [] (some "bye") rfl
      (fun tc' h => absurd h (List.not_mem_nil _)) rfl

theorem c4_witness :
    wSelfI.get_instructions = "inst" ∧
    wSelf.get_instructions = wSelf.assistantInstructions.getD "" ++ "\n\n" ++ "extra" := by
  constructor
  · exact (c4_get_instructions_cases wSelfI).1 "inst" rfl rfl
  · exact (c4_get_instructions_cases wSelf).2.2.2.2 "extra" rfl rfl

theorem c5_witness :
    wSelf.get_tools = wSelf.assistantTools ++ wSelf.additional_tools.getD [] ∧
    wSelfT.get_tools = [wToolG] := by
  constructor
  · exact (c5_get_tools_cases wSelf).1 rfl
  · exact (c5_get_tools_cases wSelfT).2.2 [wToolG] rfl rfl

theorem c6_witness :
    List.Pairwise (fun a b : Message => a.created_at ≤ b.created_at) wSelfDict.messages ∧
    (wSelfDict.messages.map Message.id).Nodup ∧
    (wSelfDict.steps.map RunStep.id).Nodup := by
  have h := c6_messages_steps_sorted_unique wSelfDict
    (by decide) (by decide) (by decide) (by decide)
  exact ⟨h.1, h.2.2.1, h.2.2.2.2.2.1⟩

theorem c7_witness :
    Event.createAndStream wSelf.threadId wSelf.assistantId wSelf.runKwargs ∈
      (Run.run_async wCallOk wEnv wSelf).2.2 ∧
    wSelf.runKwargs.instructions = some wSelf.get_instructions ∧
    wSelf.runKwargs.tools = none := by
  have h := c7_run_kwargs_present_iff wCallOk wEnv wSelf rfl
  exact ⟨h.1, h.2.2.1 (Or.inr (by decide)), h.2.2.2.2.2.2 rfl rfl⟩

theorem c8_witness :
    ∃ r, (Run.runBody wCallCancel wEnv wSelf).2.1.run = some r ∧
      Run.run_async wCallCancel wEnv wSelf =
        (RunRes.returned,
         { (Run.runBody wCallCancel wEnv wSelf).2.1 with
             run := some wEnv.retrieveResult, data := some "bye" },
         (Run.runBody wCallCancel wEnv wSelf).2.2 ++
           [Event.cancelAPI (Run.runBody wCallCancel wEnv wSelf).2.1.threadId r.id,
            Event.retrieveAPI (Run.runBody wCallCancel wEnv wSelf).2.1.threadId r.id,
            Event.postRunHook]) :=
  c8_cancel_run_is_handled wCallCancel wEnv wSelf (some "bye")
    (Run.runBody wCallCancel wEnv wSelf).2.1
    (Run.runBody wCallCancel wEnv wSelf).2.2
    rfl (by decide)

theorem c9_witness :
    Run.get_tool_outputs wCallOk wSelf wRunDone = Except.ok ToolOutputsResult.nonePair ∧
    Run.get_tool_outputs wCallOk wSelf wRunOther = Except.ok ToolOutputsResult.noneValue := by
  constructor
  · exact (c9_tool_outputs_none_shapes wCallOk wSelf wRunDone).1 (by decide)
  · exact (c9_tool_outputs_none_shapes wCallOk wSelf wRunOther).2 wRAOther rfl rfl (by decide)

theorem c10_witness :
    Run.refresh_async wEnv wSelf =
      (some (PyExc.valueError "Run has not been created yet."), wSelf, []) ∧
    Run.cancel_async wEnv wSelf =
      (some (PyExc.valueError "Run has not been created yet."), wSelf, []) ∧
    Run.run_async wCallOk wEnv wSelfReq =
      (RunRes.raised (PyExc.valueError
         "This run object was provided an ID; can not create a new run."),
       wSelfReq, []) := by
  have h1 := c10_guard_value_errors wCallOk wEnv wSelf
  have h2 := c10_guard_value_errors wCallOk wEnv wSelfReq
  exact ⟨h1.2.1 rfl, h1.2.2.2.1 rfl, h2.2.2.2.2.2 (by decide)⟩
